import Mathlib

/-!
Verification of the WKPostMessenger core (src/WKPostMessenger.js) against its
natural-language specification.

The development shallowly embeds the source:
* `natStr` / `genNext` embed `timestampIdGenerator` (template-string of a
  decimal number becomes an explicit decimal digit list);
* a per-call state machine (`CallSt`, `cstep`) embeds the body of
  `_sendMessage` (the promise executor together with its timeout and the
  emitter waiter for the generated id);
* a channel state machine (`ChannelState`, `applyOp`, `stepRem`) embeds the
  instance fields `_connecting` / `_connected` / `_whenReady`, the transport
  send log (`parent.postMessage` appends an envelope), and the promise
  continuations of `sendHandshake` / `sendMessage`;
* `handlerGlobalFn` embeds the ambient inbound entry point installed as
  `window[handlerGlobal]`, and `cbEnv` embeds `_sendMessageCallback`;
* `constructParent` embeds the constructor's transport-target lookup.

The event-emitter dependency (`eemit`) is not part of this repository's
sources; its registry is modelled from the spec (see `Registry`).
-/

namespace WK

/-- Protocol constants from the head of WKPostMessenger.js. -/
def DEFAULT_TIMEOUT : Nat := 3000

def HANDSHAKE_ACTION : String := "__WK_HANDSHAKE__"

def CALLBACK_ACTION : String := "__WK_CALLBACK__"

def MESSAGE_TYPE : String := "application/x-wkpostmessenger-v1+json"

/-- Rejection reason used by `_sendMessage` when its acknowledgment timer fires. -/
def msgTimeoutMsg : String := "[WKPostMessenger] message acknowledgment timeout"

/-- Rejection reason produced by the `catch` branch of `sendHandshake`. -/
def hsTimeoutMsg : String := "[WKPostMessenger] handshake acknowledgment timeout"

/-- Error thrown by `sendHandshake` once the channel is connected. -/
def hsMisuseMsg : String := "[WKPostMessenger] sendHandshake was already completed!!"

/-- Error thrown by the constructor when the transport lookup throws.
(The source text contains an apostrophe, omitted here.) -/
def cantAddMsg : String := "Cant add message handler"

/-!
## Decimal representation

JavaScript renders `${inc}${now}` with the usual base-10 representation of the
two numbers.  `natStrAux` is a fuel-based digit accumulator (fuel `n + 1`
always suffices), kept structural so that every concrete id evaluates inside
the kernel.
-/

def natStrAux : Nat → Nat → List Char → List Char
  | 0, _, acc => acc
  | fuel + 1, n, acc =>
    let d := Nat.digitChar (n % 10)
    if n / 10 = 0 then d :: acc else natStrAux fuel (n / 10) (d :: acc)

/-- Decimal string (as a list of characters) of a natural number, exactly the
JavaScript number-to-string rendering used by the template literal. -/
def natStr (n : Nat) : List Char := natStrAux (n + 1) n []

theorem natStr_zero : natStr 0 = ['0'] := rfl

theorem natStrAux_eq_digits (fuel : Nat) :
    ∀ n acc, n ≠ 0 → n ≤ fuel →
      natStrAux fuel n acc = ((Nat.digits 10 n).map Nat.digitChar).reverse ++ acc := by
  induction fuel with
  | zero => intro n acc hn hle; omega
  | succ fuel ih =>
    intro n acc hn hle
    have hd : Nat.digits 10 n = n % 10 :: Nat.digits 10 (n / 10) :=
      Nat.digits_def' (by norm_num) (Nat.pos_of_ne_zero hn)
    by_cases hq : n / 10 = 0
    · simp [natStrAux, hq, hd]
    · have hlt : n / 10 < n := Nat.div_lt_self (Nat.pos_of_ne_zero hn) (by norm_num)
      have := ih (n / 10) (Nat.digitChar (n % 10) :: acc) hq (by omega)
      simp only [natStrAux, if_neg hq]
      rw [this, hd]
      simp

theorem natStr_eq_digits {n : Nat} (hn : n ≠ 0) :
    natStr n = ((Nat.digits 10 n).map Nat.digitChar).reverse := by
  have := natStrAux_eq_digits (n + 1) n [] hn (by omega)
  simpa [natStr] using this

theorem digitChar_inj_lt10 {a b : Nat} (ha : a < 10) (hb : b < 10)
    (h : Nat.digitChar a = Nat.digitChar b) : a = b := by
  have : ∀ x : Fin 10, ∀ y : Fin 10,
      Nat.digitChar x.val = Nat.digitChar y.val → x.val = y.val := by decide
  exact this ⟨a, ha⟩ ⟨b, hb⟩ h

theorem map_digitChar_inj :
    ∀ (l1 l2 : List Nat), (∀ d ∈ l1, d < 10) → (∀ d ∈ l2, d < 10) →
      l1.map Nat.digitChar = l2.map Nat.digitChar → l1 = l2 := by
  intro l1
  induction l1 with
  | nil => intro l2 _ _ h; cases l2 <;> simp_all
  | cons a l1 ih =>
    intro l2 h1 h2 h
    cases l2 with
    | nil => simp at h
    | cons b l2 =>
      simp only [List.map_cons, List.cons.injEq] at h
      have hab : a = b :=
        digitChar_inj_lt10 (h1 a (by simp)) (h2 b (by simp)) h.1
      have := ih l2 (fun d hd => h1 d (by simp [hd])) (fun d hd => h2 d (by simp [hd])) h.2
      simp [hab, this]

theorem natStr_ne_nil (n : Nat) : natStr n ≠ [] := by
  by_cases hn : n = 0
  · subst hn; simp [natStr_zero]
  · rw [natStr_eq_digits hn]
    have : Nat.digits 10 n ≠ [] := Nat.digits_ne_nil_iff_ne_zero.mpr hn
    simpa using this

theorem natStr_head_cases (n : Nat) :
    ∃ c cs, natStr n = c :: cs ∧ (n ≠ 0 → c ≠ '0') ∧ (n = 0 → c = '0' ∧ cs = []) := by
  by_cases hn : n = 0
  · exact ⟨'0', [], by simp [hn, natStr_zero], by simp [hn], by simp⟩
  · have hnil : Nat.digits 10 n ≠ [] := Nat.digits_ne_nil_iff_ne_zero.mpr hn
    have hlast := Nat.getLast_digit_ne_zero 10 hn
    rcases hr : (Nat.digits 10 n).reverse with _ | ⟨d, rest⟩
    · exact absurd (by simpa using congrArg List.reverse hr) hnil
    · refine ⟨Nat.digitChar d, rest.map Nat.digitChar, ?_, ?_, by simp [hn]⟩
      · rw [natStr_eq_digits hn, ← List.map_reverse, hr, List.map_cons]
      · intro _ hc
        have hdmem : d ∈ Nat.digits 10 n := by
          have : d ∈ (Nat.digits 10 n).reverse := by rw [hr]; simp
          simpa using this
        have hdlt : d < 10 := Nat.digits_lt_base (by norm_num) hdmem
        have hd0 : d = 0 := by
          have := digitChar_inj_lt10 hdlt (by norm_num : (0:Nat) < 10) (by simpa using hc)
          simpa using this
        subst hd0
        have hglast : (Nat.digits 10 n).getLast hnil = 0 := by
          have h1 : (Nat.digits 10 n).getLast? = some 0 := by
            rw [← List.head?_reverse, hr]; rfl
          have h2 := List.getLast?_eq_getLast (Nat.digits 10 n) hnil
          rw [h2] at h1
          exact (Option.some.inj h1)
        exact hlast hglast

theorem natStr_inj {a b : Nat} (h : natStr a = natStr b) : a = b := by
  by_cases ha : a = 0 <;> by_cases hb : b = 0
  · omega
  · exfalso
    obtain ⟨c, cs, hcons, hne, _⟩ := natStr_head_cases b
    rw [ha, natStr_zero, hcons] at h
    exact hne hb ((List.cons.inj h.symm).1)
  · exfalso
    obtain ⟨c, cs, hcons, hne, _⟩ := natStr_head_cases a
    rw [hb, natStr_zero, hcons] at h
    exact hne ha ((List.cons.inj h).1)
  · rw [natStr_eq_digits ha, natStr_eq_digits hb] at h
    have := List.reverse_injective h
    have := map_digitChar_inj _ _
      (fun d hd => Nat.digits_lt_base (by norm_num) hd)
      (fun d hd => Nat.digits_lt_base (by norm_num) hd) this
    exact Nat.digits.injective 10 this

/-!
## Token generator (`timestampIdGenerator`)

State of the closure: `inc`, `now`, `lastNow`.  `now` and `lastNow` start out
as JavaScript `undefined`, embedded as `none`.  `next` receives the current
`Date.now()` value as an explicit argument `t`.
-/

structure GenState where
  inc : Nat
  now : Option Nat
  lastNow : Option Nat
deriving DecidableEq, Repr

/-- Fresh generator state: `inc = 0`, `now` and `lastNow` undefined. -/
def genInit : GenState := ⟨0, none, none⟩

/-- One `next()` call of `timestampIdGenerator` at wall-clock time `t`:
`lastNow = now; now = Date.now(); if (lastNow === now) inc += 1 else inc = 0;
return { value: template of inc and now }`. -/
def genNext (s : GenState) (t : Nat) : String × GenState :=
  let lastNow := s.now
  let inc := if lastNow = some t then s.inc + 1 else 0
  (String.mk (natStr inc ++ natStr t), { inc := inc, now := some t, lastNow := lastNow })

theorem genNext_succ_ne (s : GenState) (t1 t2 : Nat) :
    (genNext (genNext s t1).2 t2).1 = (genNext s t1).1 → False := by
  intro h
  simp only [genNext] at h
  set i1 : Nat := if s.now = some t1 then s.inc + 1 else 0 with hi1
  have h2 : natStr (if (some t1 : Option Nat) = some t2 then i1 + 1 else 0) ++ natStr t2
      = natStr i1 ++ natStr t1 := congrArg String.data h
  by_cases ht : t1 = t2
  · subst ht
    rw [if_pos rfl] at h2
    have hcancel : natStr (i1 + 1) = natStr i1 := List.append_cancel_right h2
    have := natStr_inj hcancel
    omega
  · rw [if_neg (by simpa using ht), natStr_zero] at h2
    by_cases hi : i1 = 0
    · rw [hi, natStr_zero] at h2
      simp only [List.cons_append, List.cons.injEq, List.nil_append] at h2
      exact ht (natStr_inj h2.2).symm
    · obtain ⟨c, cs, hcons, hnz, _⟩ := natStr_head_cases i1
      rw [hcons] at h2
      simp only [List.cons_append, List.cons.injEq, List.nil_append] at h2
      exact hnz hi h2.1.symm

/-!
## Event Correlator

The outbound side correlates replies through an `eemit` emitter instance:
`_emitter.on(id, cb)` registers the waiter, `window[callbackGlobal]` forwards
an inbound reply to `_emitter.trigger(id, result)`, and the timeout path uses
`_emitter.off(id, cb)`.
-/

/-- Modelled from the spec: the `eemit` event emitter used as the Correlator is
an external dependency whose source is not part of this repository.  Per the
spec, the Correlator is "a registry mapping an identifier to a single pending
waiter"; `fire(id, result)` looks up and removes the waiter, invoking it with
`result`, and is a no-op if no waiter exists; `unregister` removes without
invoking.  The registry is a map from identifier to at most one waiter. -/
def Registry (α : Type) : Type := String → Option α

/-- Modelled from the spec: `register(id, onResult)` stores exactly one waiter
for `id` (embeds `_emitter.on(id, callbackReceived)`). -/
def regRegister {α : Type} (reg : Registry α) (id : String) (w : α) : Registry α :=
  fun k => if k = id then some w else reg k

/-- Modelled from the spec: `fire(id, result)` looks up and removes the waiter;
returns the waiter to be invoked (`none` when it was a no-op).  This embeds
`_emitter.trigger(id, result)` as forwarded by `window[callbackGlobal]`. -/
def regFire {α : Type} (reg : Registry α) (id : String) : Option α × Registry α :=
  match reg id with
  | some w => (some w, fun k => if k = id then none else reg k)
  | none => (none, reg)

/-- Modelled from the spec: `unregister(id)` removes a waiter without invoking
it (embeds `_emitter.off(id, callbackReceived)` on the timeout path). -/
def regOff {α : Type} (reg : Registry α) (id : String) : Registry α :=
  fun k => if k = id then none else reg k

/-!
## Envelopes

The wire unit built by `_sendMessage` (request) and `_sendMessageCallback`
(reply).  Payloads are embedded by the opaque value type `Val`.
-/

inductive Val where
  | null
  | str (s : String)
  | num (n : Nat)
deriving DecidableEq, Repr

structure Envelope where
  type : String
  callback : Option String
  id : String
  action : String
  data : Val
deriving DecidableEq, Repr

/-- The request envelope built inside `_sendMessage`:
`{ type: MESSAGE_TYPE, callback: this._cb, id, action, data }`. -/
def requestEnv (cb : String) (id : String) (action : String) (data : Val) : Envelope :=
  { type := MESSAGE_TYPE, callback := some cb, id := id, action := action, data := data }

/-- The reply envelope built by `_sendMessageCallback`:
`{ type: MESSAGE_TYPE, callback: "", action: CALLBACK_ACTION, id, data }`
(the source keeps `callback` as an empty string with a TODO to remove it). -/
def cbEnv (id : String) (data : Val) : Envelope :=
  { type := MESSAGE_TYPE, callback := some "", id := id, action := CALLBACK_ACTION, data := data }

/-!
## Per-call model of `_sendMessage`

One outbound call, after its envelope has been posted: the emitter waiter
registered under the generated id (`waiter`), the armed rejection timer
(`timer`, armed exactly when `timeout > 0`), and the state of the returned
promise (`res`, with JavaScript settle-once semantics).

Events that can reach the call afterwards: a reply for its id delivered
through `window[callbackGlobal]` (hence through the Correlator's fire), or
the `setTimeout` body firing.
-/

inductive CallRes where
  | pending
  | resolvedC (v : Val)
  | rejectedC (r : String)
deriving DecidableEq, Repr

structure CallSt where
  waiter : Bool
  timer : Bool
  res : CallRes
deriving DecidableEq, Repr

/-- State right after `_sendMessage` ran its executor with timeout `timeout`:
waiter registered (`_emitter.on`), timer armed iff `timeout > 0`, promise
pending. -/
def callInit (timeout : Nat) : CallSt :=
  { waiter := true, timer := decide (0 < timeout), res := CallRes.pending }

inductive CEv where
  | reply (v : Val)
  | timerFire
deriving DecidableEq, Repr

/-- Promise `resolve`: settles only from the pending state. -/
def settleResolve : CallRes → Val → CallRes
  | CallRes.pending, v => CallRes.resolvedC v
  | r, _ => r

/-- Promise `reject`: settles only from the pending state. -/
def settleReject : CallRes → String → CallRes
  | CallRes.pending, m => CallRes.rejectedC m
  | r, _ => r

/-- One event against a call.  A reply goes through the Correlator: if the
waiter is still registered it is removed and `callbackReceived` runs
(`clearTimeout` then `resolve`); otherwise the fire is a no-op.  The timer
body runs only if the timer is still armed: `this._emitter.off(id, cb)` then
`reject` with the message-acknowledgment-timeout reason. -/
def cstep (s : CallSt) : CEv → CallSt
  | CEv.reply v =>
    if s.waiter then
      { waiter := false, timer := false, res := settleResolve s.res v }
    else s
  | CEv.timerFire =>
    if s.timer then
      { waiter := false, timer := false, res := settleReject s.res msgTimeoutMsg }
    else s

def crun (s : CallSt) : List CEv → CallSt
  | [] => s
  | e :: evs => crun (cstep s e) evs

theorem crun_append (s : CallSt) (evs : List CEv) (e : CEv) :
    crun s (evs ++ [e]) = cstep (crun s evs) e := by
  induction evs generalizing s with
  | nil => rfl
  | cons e' evs ih => simpa [crun] using ih (cstep s e')

/-- Invariant of a call started by `_sendMessage`: while the promise is
pending the waiter is registered, and once it settled both the waiter and
the timer are gone. -/
def CallInv (s : CallSt) : Prop :=
  (s.res = CallRes.pending → s.waiter = true) ∧
  (s.res ≠ CallRes.pending → s.waiter = false ∧ s.timer = false)

theorem callInv_init (timeout : Nat) : CallInv (callInit timeout) := by
  constructor <;> simp [callInit]

theorem callInv_step (s : CallSt) (e : CEv) (h : CallInv s) : CallInv (cstep s e) := by
  obtain ⟨h1, h2⟩ := h
  cases e with
  | reply v =>
    by_cases hw : s.waiter = true
    · cases hres : s.res with
      | pending => simp [cstep, hw, settleResolve, hres, CallInv]
      | resolvedC v' =>
        exact absurd ((h2 (by simp [hres])).1) (by simp [hw])
      | rejectedC r =>
        exact absurd ((h2 (by simp [hres])).1) (by simp [hw])
    · have : s.waiter = false := by simpa using hw
      simpa [cstep, this] using ⟨h1, h2⟩
  | timerFire =>
    by_cases htm : s.timer = true
    · cases hres : s.res with
      | pending => simp [cstep, htm, settleReject, hres, CallInv]
      | resolvedC v' =>
        exact absurd ((h2 (by simp [hres])).2) (by simp [htm])
      | rejectedC r =>
        exact absurd ((h2 (by simp [hres])).2) (by simp [htm])
    · have : s.timer = false := by simpa using htm
      simpa [cstep, this] using ⟨h1, h2⟩

theorem callInv_run (s : CallSt) (evs : List CEv) (h : CallInv s) : CallInv (crun s evs) := by
  induction evs generalizing s with
  | nil => simpa [crun]
  | cons e evs ih => exact ih _ (callInv_step s e h)

/-- Once settled, a further event leaves the call state unchanged. -/
theorem cstep_settled (s : CallSt) (e : CEv) (h : CallInv s)
    (hres : s.res ≠ CallRes.pending) : cstep s e = s := by
  obtain ⟨hw, htm⟩ := h.2 hres
  cases e <;> simp [cstep, hw, htm]

/-- The call state after the rejection timer has fired. -/
def callRejected : CallSt :=
  { waiter := false, timer := false, res := CallRes.rejectedC msgTimeoutMsg }

theorem crun_callRejected (evs : List CEv) : crun callRejected evs = callRejected := by
  induction evs with
  | nil => rfl
  | cons e evs ih =>
    have hstep : cstep callRejected e = callRejected := by
      cases e <;> simp [cstep, callRejected]
    simpa [crun, hstep] using ih

/-- If no reply is delivered, the call state stays at its initial value or has
already been rejected by the timer. -/
theorem crun_no_reply (timeout : Nat) (hT : 0 < timeout) (evs : List CEv)
    (hnr : ∀ v, CEv.reply v ∉ evs) :
    crun (callInit timeout) evs = callInit timeout ∨
      crun (callInit timeout) evs = callRejected := by
  induction evs with
  | nil => exact Or.inl rfl
  | cons e evs ih =>
    cases e with
    | reply v => exact absurd (List.mem_cons_self _ _) (hnr v)
    | timerFire =>
      have hstep : cstep (callInit timeout) CEv.timerFire = callRejected := by
        simp [cstep, callInit, settleReject, callRejected, hT]
      right
      show crun (cstep (callInit timeout) CEv.timerFire) evs = callRejected
      rw [hstep, crun_callRejected]

/-!
## Inbound dispatcher (`window[handlerGlobal]` and `_handleMessage`)

The user-supplied handler is a JavaScript function whose invocation at a given
`(action, data)` either returns a plain (non-thenable) value, throws
synchronously, or returns a thenable that later fulfills or rejects.
`HandlerOutcome` enumerates exactly these possibilities of the dynamic
semantics.
-/

inductive HandlerOutcome where
  | ret (v : Val)
  | thrown (e : String)
  | thenableFulfills (v : Val)
  | thenableRejects (e : String)
deriving DecidableEq, Repr

/-- Result of `this._handleMessage(action, data)` as seen by the caller:
either a synchronous throw (`Except.error`) or the returned value, which is a
plain value or a thenable. -/
inductive HandlerResult where
  | plain (v : Val)
  | thenableF (v : Val)
  | thenableR (e : String)
deriving DecidableEq, Repr

/-- `_handleMessage(action, data)`: call `this.handleMessage` when it is a
function, otherwise return `null`.  A synchronous throw of the user handler
propagates to the caller. -/
def _handleMessage (handleMessage : Option (String → Val → HandlerOutcome))
    (action : String) (data : Val) : Except String HandlerResult :=
  match handleMessage with
  | none => Except.ok (HandlerResult.plain Val.null)
  | some f =>
    match f action data with
    | HandlerOutcome.ret v => Except.ok (HandlerResult.plain v)
    | HandlerOutcome.thrown e => Except.error e
    | HandlerOutcome.thenableFulfills v => Except.ok (HandlerResult.thenableF v)
    | HandlerOutcome.thenableRejects e => Except.ok (HandlerResult.thenableR e)

/-- The ambient entry point `window[handlerGlobal] = (id, action, data) => ...`.
Returns the list of reply envelopes that this inbound call eventually posts to
the transport, or `Except.error` when the entry point itself throws.
The source checks `result && typeof result.then === "function"`: a thenable
result gets `result.then(r => this._sendMessageCallback(id, r))` — with no
rejection handler, so a rejecting thenable never posts a reply — and any
other result is passed to `_sendMessageCallback` synchronously. -/
def handlerGlobalFn (handleMessage : Option (String → Val → HandlerOutcome))
    (id : String) (action : String) (data : Val) : Except String (List Envelope) :=
  match _handleMessage handleMessage action data with
  | Except.error e => Except.error e
  | Except.ok (HandlerResult.plain v) => Except.ok [cbEnv id v]
  | Except.ok (HandlerResult.thenableF v) => Except.ok [cbEnv id v]
  | Except.ok (HandlerResult.thenableR _) => Except.ok []

/-- The reply envelopes actually posted by an inbound dispatch (none when the
entry point threw before reaching `_sendMessageCallback`). -/
def repliesOf : Except String (List Envelope) → List Envelope
  | Except.ok l => l
  | Except.error _ => []

/-!
## Constructor transport lookup

`this.parent = window.webkit.messageHandlers[scriptMessageHandler]` inside
`try/catch`.  The property chain throws (TypeError, converted into the
constructor error) exactly when `window.webkit` or
`window.webkit.messageHandlers` is `undefined`; indexing an existing
`messageHandlers` object with an absent key yields `undefined` without
throwing.  `messageHandlers` is embedded as the list of handler names it
contains.
-/

structure WebkitEnv where
  webkit : Option (Option (List String))
deriving DecidableEq, Repr

/-- Whether the named transport send target exists in the environment. -/
def targetLocated (env : WebkitEnv) (scriptMessageHandler : String) : Bool :=
  match env.webkit with
  | some (some handlers) => scriptMessageHandler ∈ handlers
  | _ => false

/-- The constructor's assignment of `this.parent` (`some ()` embeds a defined
message handler object, `none` embeds `undefined`).  `Except.error` is the
synchronous constructor throw. -/
def constructParent (env : WebkitEnv) (scriptMessageHandler : String) :
    Except String (Option Unit) :=
  match env.webkit with
  | none => Except.error cantAddMsg
  | some none => Except.error cantAddMsg
  | some (some handlers) =>
    Except.ok (if scriptMessageHandler ∈ handlers then some () else none)

/-!
## Channel model

State of one WKPostMessenger instance together with its transport log.
`whenReady` is the settlement state of the `_whenReady` promise chain
(`none` embeds the field being `undefined`, i.e. no handshake ever
initiated).  `hsWaiter` / `hsTimer` are the emitter waiter and the armed
rejection timer of the in-flight handshake call's `_sendMessage`.
`sent` is the ordered log of `this.parent.postMessage(...)` envelopes.
`msgCalls` tracks, in creation order, the promises returned by
`sendMessage`: still queued behind `_whenReady`, dispatched and pending,
settled, or rejected through the handshake rejection.

Promise continuations are applied atomically with the event that settles the
relevant promise; this collapses the microtask queue, which none of the
verified properties observe.
-/

structure Config where
  handlerGlobal : String
  callbackGlobal : String
  handshakeTimeout : Nat
  messageTimeout : Nat
deriving DecidableEq, Repr

/-- The option defaults from the constructor signature. -/
def defaultConfig : Config :=
  { handlerGlobal := "wkPostMessengerHandleMessage"
    callbackGlobal := "wkPostMessengerCallback"
    handshakeTimeout := DEFAULT_TIMEOUT
    messageTimeout := DEFAULT_TIMEOUT }

inductive HsDeferred where
  | pending
  | fulfilled
  | rejected (reason : String)
deriving DecidableEq, Repr

inductive MsgCall where
  | queued (action : String) (data : Val) (timeout : Nat)
  | sentPending (id : String) (timer : Bool)
  | resolvedCall (v : Val)
  | rejectedTimeout (reason : String)
  | rejectedHandshake (reason : String)
deriving DecidableEq, Repr

structure ChannelState where
  connecting : Bool
  connected : Bool
  whenReady : Option HsDeferred
  hsWaiter : Bool
  hsTimer : Bool
  sent : List Envelope
  gen : GenState
  msgCalls : List MsgCall
deriving DecidableEq, Repr

/-- State right after construction with `autoHandshake: false`: class fields
`_connecting = false`, `_connected = false`, `_whenReady` undefined, nothing
posted yet, fresh generator. -/
def initState : ChannelState :=
  { connecting := false, connected := false, whenReady := none,
    hsWaiter := false, hsTimer := false, sent := [], gen := genInit, msgCalls := [] }

/-- The request envelope with the given id for the handshake call:
`_sendMessage(HANDSHAKE_ACTION, this._hm, this._handshakeTimeout)`. -/
def hsEnvelope (cfg : Config) (id : String) : Envelope :=
  requestEnv cfg.callbackGlobal id HANDSHAKE_ACTION (Val.str cfg.handlerGlobal)

/-- The body of `_sendMessage` up to its suspension: draw a fresh id, build
the request envelope, post it, and report whether a rejection timer was armed
(`timeout > 0`).  Returns (id, generator, send log, timer armed). -/
def _sendMessagePure (cfg : Config) (gen : GenState) (sent : List Envelope)
    (action : String) (data : Val) (timeout : Nat) (t : Nat) :
    String × GenState × List Envelope × Bool :=
  let r := genNext gen t
  (r.1, r.2, sent ++ [requestEnv cfg.callbackGlobal r.1 action data], decide (0 < timeout))

/-- `sendHandshake()` at wall-clock time `t`.  Throws the protocol-misuse
error when `_connected`; coalesces onto the in-flight `_whenReady` when
`_connecting`; otherwise marks `_connecting`, issues the handshake
`_sendMessage` and installs the `_whenReady` chain. -/
def sendHandshakeOp (cfg : Config) (s : ChannelState) (t : Nat) :
    Except String ChannelState :=
  if s.connected then Except.error hsMisuseMsg
  else if s.connecting then Except.ok s
  else
    let r := _sendMessagePure cfg s.gen s.sent HANDSHAKE_ACTION
      (Val.str cfg.handlerGlobal) cfg.handshakeTimeout t
    Except.ok { s with
      connecting := true
      whenReady := some HsDeferred.pending
      hsWaiter := true
      hsTimer := r.2.2.2
      gen := r.2.1
      sent := r.2.2.1 }

/-- `sendMessage(action, data, timeout)` at wall-clock time `t`: initiate the
handshake when `_whenReady` has never been set, then chain
`.then(() => this._sendMessage(action, data, timeout))` on `_whenReady` —
queued behind a pending handshake, dispatched at once when it is already
fulfilled, rejected with the stored reason when it is already rejected.
(The `timeout` argument defaults to `cfg.messageTimeout` at call sites.)
If `_whenReady` were still unset after the implicit handshake, the `.then`
access would throw a TypeError; that branch is unreachable from `initState`. -/
def sendMessageOp (cfg : Config) (s : ChannelState)
    (action : String) (data : Val) (timeout : Nat) (t : Nat) :
    Except String ChannelState :=
  match (if s.whenReady = none then sendHandshakeOp cfg s t else Except.ok s) with
  | Except.error e => Except.error e
  | Except.ok s1 =>
    match s1.whenReady with
    | none => Except.error "TypeError"
    | some HsDeferred.pending =>
      Except.ok { s1 with msgCalls := s1.msgCalls ++ [MsgCall.queued action data timeout] }
    | some HsDeferred.fulfilled =>
      let r := _sendMessagePure cfg s1.gen s1.sent action data timeout t
      Except.ok { s1 with
        gen := r.2.1
        sent := r.2.2.1
        msgCalls := s1.msgCalls ++ [MsgCall.sentPending r.1 r.2.2.2] }
    | some (HsDeferred.rejected reason) =>
      Except.ok { s1 with msgCalls := s1.msgCalls ++ [MsgCall.rejectedHandshake reason] }

/-- Dispatch the queued `sendMessage` continuations once `_whenReady`
fulfills: each still-queued call runs `this._sendMessage(action, data,
timeout)` in order. -/
def flushCalls (cfg : Config) (t : Nat) :
    GenState → List Envelope → List MsgCall → GenState × List Envelope × List MsgCall
  | gen, sent, [] => (gen, sent, [])
  | gen, sent, MsgCall.queued action data timeout :: rest =>
    let r := _sendMessagePure cfg gen sent action data timeout t
    let rec2 := flushCalls cfg t r.2.1 r.2.2.1 rest
    (rec2.1, rec2.2.1, MsgCall.sentPending r.1 r.2.2.2 :: rec2.2.2)
  | gen, sent, c :: rest =>
    let rec2 := flushCalls cfg t gen sent rest
    (rec2.1, rec2.2.1, c :: rec2.2.2)

/-- Reject the queued `sendMessage` continuations when `_whenReady` rejects:
`.then` without a rejection handler propagates the handshake rejection. -/
def rejectQueued : MsgCall → MsgCall
  | MsgCall.queued _ _ _ => MsgCall.rejectedHandshake hsTimeoutMsg
  | c => c

/-- Point update of the message-call list. -/
def updateAt (f : MsgCall → MsgCall) : List MsgCall → Nat → List MsgCall
  | [], _ => []
  | c :: rest, 0 => f c :: rest
  | c :: rest, Nat.succ i => c :: updateAt f rest i

/-- Effect of a reply on one message call: a still-pending dispatched call
resolves (waiter removed, timer cleared); anything else is a Correlator
no-op. -/
def ackCall (v : Val) : MsgCall → MsgCall
  | MsgCall.sentPending _ _ => MsgCall.resolvedCall v
  | c => c

/-- Effect of the rejection timer on one message call: a dispatched call with
an armed timer rejects with the message-acknowledgment-timeout reason. -/
def timeoutCall : MsgCall → MsgCall
  | MsgCall.sentPending _ true => MsgCall.rejectedTimeout msgTimeoutMsg
  | c => c

/-- Remote events: the handshake reply reaching `window[callbackGlobal]`
(at wall-clock time `t`, used for ids of flushed sends), the handshake
rejection timer firing, a reply for the `i`-th message call, and the `i`-th
message call's rejection timer firing. -/
inductive REv where
  | hsAck (t : Nat)
  | hsTimeout
  | msgAck (i : Nat) (v : Val)
  | msgTimeout (i : Nat)
deriving DecidableEq, Repr

/-- Effect of one remote event, transcribing the promise chains:

* `hsAck`: `window[callbackGlobal]` fires the Correlator; if the handshake
  waiter is still registered it is removed, `callbackReceived` clears the
  timer and resolves the inner call, the `.then` sets `_connected = true`,
  `_whenReady` fulfills and the queued `sendMessage` continuations dispatch.
  Otherwise (late or duplicate ack) it is a no-op.
* `hsTimeout`: if the handshake timer is armed, the timer body unregisters
  the waiter and rejects the inner call; the `.catch` resets
  `_connecting = false` and re-rejects with the handshake-timeout reason,
  which also rejects every queued `sendMessage` continuation.
* `msgAck i` / `msgTimeout i`: same per-call logic as `cstep` applied to the
  `i`-th `sendMessage` call. -/
def stepRem (cfg : Config) (s : ChannelState) : REv → ChannelState
  | REv.hsAck t =>
    if s.hsWaiter then
      let r := flushCalls cfg t s.gen s.sent s.msgCalls
      { s with
        hsWaiter := false
        hsTimer := false
        connected := true
        whenReady := some HsDeferred.fulfilled
        gen := r.1
        sent := r.2.1
        msgCalls := r.2.2 }
    else s
  | REv.hsTimeout =>
    if s.hsTimer then
      { s with
        hsWaiter := false
        hsTimer := false
        connecting := false
        whenReady := some (HsDeferred.rejected hsTimeoutMsg)
        msgCalls := s.msgCalls.map rejectQueued }
    else s
  | REv.msgAck i v =>
    { s with msgCalls := updateAt (ackCall v) s.msgCalls i }
  | REv.msgTimeout i =>
    { s with msgCalls := updateAt timeoutCall s.msgCalls i }

inductive Op where
  | sendHandshake (t : Nat)
  | sendMessage (action : String) (data : Val) (timeout : Nat) (t : Nat)
deriving DecidableEq, Repr

def applyOp (cfg : Config) (s : ChannelState) : Op → Except String ChannelState
  | Op.sendHandshake t => sendHandshakeOp cfg s t
  | Op.sendMessage action data timeout t => sendMessageOp cfg s action data timeout t

inductive Ev where
  | op (o : Op)
  | rem (e : REv)
deriving DecidableEq, Repr

/-- One step of the whole system.  An operation that throws synchronously
leaves the state unchanged (both throws in the source occur before any
mutation). -/
def step (cfg : Config) (s : ChannelState) : Ev → ChannelState
  | Ev.op o =>
    match applyOp cfg s o with
    | Except.ok s1 => s1
    | Except.error _ => s
  | Ev.rem e => stepRem cfg s e

def run (cfg : Config) (s : ChannelState) : List Ev → ChannelState
  | [] => s
  | e :: evs => run cfg (step cfg s e) evs

def runRem (cfg : Config) (s : ChannelState) : List REv → ChannelState
  | [] => s
  | e :: evs => runRem cfg (stepRem cfg s e) evs

/-- Connection state as a rank: `unconnected = 0`, `connecting = 1`,
`connected = 2` (`_connected` implies the terminal state regardless of
`_connecting`, which stays `true` after a successful handshake). -/
def connRank (s : ChannelState) : Nat :=
  if s.connected then 2 else if s.connecting then 1 else 0

/-- Count of handshake envelopes in a send log. -/
def countHs (sent : List Envelope) : Nat :=
  sent.countP (fun e => e.action == HANDSHAKE_ACTION)

/-!
## Claim theorems
-/

/-- C9: for every state of the token generator, two successive `next()` calls
with no intervening call never return equal id values — the id is the
intra-millisecond counter concatenated before the millisecond timestamp, the
counter incrementing when the timestamp is unchanged and resetting to 0 when
it advances. -/
theorem c9_generator_unique (s : GenState) (t1 t2 : Nat) :
    ((genNext (genNext s t1).2 t2).1 == (genNext s t1).1) = false := by
  rw [beq_eq_false_iff_ne]
  exact fun h => genNext_succ_ne s t1 t2 h

/-- C6: firing a reply through the Correlator returns exactly the registered
waiter for that id (the one invoked), removes the entry so it does not
persist after a successful reply, leaves other ids untouched, and firing an
id with no registered waiter is a safe no-op. -/
theorem c6_correlator_fire (α : Type) (reg : Registry α) (id : String) :
    (regFire reg id).1 = reg id ∧
    (regFire reg id).2 id = none ∧
    (∀ k, k ≠ id → (regFire reg id).2 k = reg k) ∧
    (reg id = none → regFire reg id = (none, reg)) := by
  cases h : reg id with
  | none => exact ⟨by simp [regFire, h], by simp [regFire, h], fun k hk => by simp [regFire, h], fun _ => by simp [regFire, h]⟩
  | some w =>
    refine ⟨by simp [regFire, h], by simp [regFire, h], fun k hk => ?_, fun hc => ?_⟩
    · simp [regFire, h, if_neg hk]
    · simp [h] at hc

theorem c6_correlator_fire_witness :
    ((regFire (fun _ => (none : Option Nat)) "a").1 = none ∧
     (regFire (fun _ => (none : Option Nat)) "a").2 "a" = none ∧
     (regFire (fun _ => (none : Option Nat)) "a").2 "b" = none ∧
     regFire (fun _ => (none : Option Nat)) "a" = (none, fun _ => none)) := by
  obtain ⟨h1, h2, h3, h4⟩ := c6_correlator_fire Nat (fun _ => none) "a"
  exact ⟨h1, h2, h3 "b" (by decide), h4 rfl⟩

/-- C7 (as stated, refuted): the reply envelope built by
`_sendMessageCallback` does not omit the `callback` field — the source keeps
it as an empty string (with a TODO to remove it once the Swift side no longer
needs it). -/
theorem c7_reply_envelope_counterexample :
    (cbEnv "1" Val.null).callback = some "" ∧
    ((cbEnv "1" Val.null).callback = none → False) := by
  refine ⟨rfl, fun h => ?_⟩
  simp [cbEnv] at h

/-- C7 amended: every reply envelope carries the reserved reply-action
constant as its action and a `callback` field that is present but equal to
the empty string, never a real entry-point name; request envelopes carry the
configured reply entry-point name in `callback`. -/
theorem c7_reply_envelope_amended (id mid action : String) (v d : Val) (cb : String) :
    (cbEnv id v).action = CALLBACK_ACTION ∧
    (cbEnv id v).callback = some "" ∧
    (cbEnv id v).id = id ∧
    (cbEnv id v).type = MESSAGE_TYPE ∧
    (requestEnv cb mid action d).callback = some cb :=
  ⟨rfl, rfl, rfl, rfl, rfl⟩

/-- C3 (as stated, refuted): an inbound call whose handler throws
synchronously produces no reply envelope at all — the exception propagates
out of the ambient entry point before `_sendMessageCallback` is reached. -/
theorem c3_inbound_reply_counterexample :
    handlerGlobalFn (some (fun _ _ => HandlerOutcome.thrown "boom")) "1" "act" Val.null
      = Except.error "boom" ∧
    repliesOf (handlerGlobalFn (some (fun _ _ => HandlerOutcome.thrown "boom")) "1" "act" Val.null)
      = [] :=
  ⟨rfl, rfl⟩

/-- C3 amended: an inbound call whose handler completes normally — absent
handler, plain return value, or an asynchronous result that fulfills — sends
exactly one reply envelope carrying the inbound id; a handler that throws
synchronously propagates the exception and sends no reply, and an
asynchronous result that rejects sends no reply (the `.then` has no rejection
handler). -/
theorem c3_inbound_reply_amended (handleMessage : Option (String → Val → HandlerOutcome))
    (id action : String) (data : Val) :
    (handleMessage = none →
      handlerGlobalFn handleMessage id action data = Except.ok [cbEnv id Val.null]) ∧
    (∀ f v, handleMessage = some f → f action data = HandlerOutcome.ret v →
      handlerGlobalFn handleMessage id action data = Except.ok [cbEnv id v]) ∧
    (∀ f v, handleMessage = some f → f action data = HandlerOutcome.thenableFulfills v →
      handlerGlobalFn handleMessage id action data = Except.ok [cbEnv id v]) ∧
    (∀ f e, handleMessage = some f → f action data = HandlerOutcome.thrown e →
      handlerGlobalFn handleMessage id action data = Except.error e) ∧
    (∀ f e, handleMessage = some f → f action data = HandlerOutcome.thenableRejects e →
      handlerGlobalFn handleMessage id action data = Except.ok []) := by
  refine ⟨?_, ?_, ?_, ?_, ?_⟩
  · intro h; subst h; rfl
  · intro f v hf hr; subst hf; simp [handlerGlobalFn, _handleMessage, hr]
  · intro f v hf hr; subst hf; simp [handlerGlobalFn, _handleMessage, hr]
  · intro f e hf hr; subst hf; simp [handlerGlobalFn, _handleMessage, hr]
  · intro f e hf hr; subst hf; simp [handlerGlobalFn, _handleMessage, hr]

theorem c3_inbound_reply_amended_witness :
    handlerGlobalFn (some (fun _ _ => HandlerOutcome.ret (Val.num 7))) "5" "echo" Val.null
      = Except.ok [cbEnv "5" (Val.num 7)] :=
  (c3_inbound_reply_amended (some (fun _ _ => HandlerOutcome.ret (Val.num 7)))
      "5" "echo" Val.null).2.1 (fun _ _ => HandlerOutcome.ret (Val.num 7)) (Val.num 7) rfl rfl

/-- C8 (as stated, refuted): with `window.webkit.messageHandlers` present but
lacking the named handler, the transport send target cannot be located and
yet the constructor succeeds (the property read yields `undefined` without
throwing; `this.parent` becomes `undefined`). -/
theorem c8_constructor_counterexample :
    targetLocated ⟨some (some [])⟩ "wkPostMessage" = false ∧
    constructParent ⟨some (some [])⟩ "wkPostMessage" = Except.ok none :=
  ⟨rfl, rfl⟩

/-- C8 amended: the constructor throws synchronously exactly when
`window.webkit` or `window.webkit.messageHandlers` is missing (the property
chain itself throws); when the `messageHandlers` container exists,
construction succeeds even if the named handler is absent, storing the
located handler or `undefined`. -/
theorem c8_constructor_amended (env : WebkitEnv) (name : String) :
    (constructParent env name = Except.error cantAddMsg ↔
      (env.webkit = none ∨ env.webkit = some none)) ∧
    (∀ handlers, env.webkit = some (some handlers) →
      constructParent env name =
        Except.ok (if name ∈ handlers then some () else none)) := by
  obtain ⟨w⟩ := env
  rcases w with _ | w
  · simp [constructParent]
  · rcases w with _ | hs <;> simp [constructParent]

theorem c8_constructor_amended_witness :
    constructParent ⟨some (some ["wkPostMessage"])⟩ "wkPostMessage" = Except.ok (some ()) := by
  have h := (c8_constructor_amended ⟨some (some ["wkPostMessage"])⟩ "wkPostMessage").2
    ["wkPostMessage"] rfl
  simpa using h

/-- C10: after the `_whenReady` handshake deferred has rejected, a
`sendMessage` call finds `_whenReady` set (it only checks whether a handshake
was ever initiated) and therefore sends no new handshake envelope and no
message envelope — `sent` is unchanged — while its returned deferred rejects
with the stored handshake rejection. -/
theorem c10_stale_handshake (cfg : Config) (s : ChannelState) (action : String)
    (data : Val) (timeout t : Nat) (r : String)
    (h : s.whenReady = some (HsDeferred.rejected r)) :
    sendMessageOp cfg s action data timeout t =
      Except.ok { s with msgCalls := s.msgCalls ++ [MsgCall.rejectedHandshake r] } := by
  simp [sendMessageOp, h]

/-- The channel state after a handshake that timed out: `sendHandshake` at
time 1, then the handshake rejection timer fires. -/
def c10FailState : ChannelState :=
  runRem defaultConfig (step defaultConfig initState (Ev.op (Op.sendHandshake 1))) [REv.hsTimeout]

theorem c10_stale_handshake_witness :
    sendMessageOp defaultConfig c10FailState "echo" Val.null 3000 2 =
      Except.ok { c10FailState with
        msgCalls := c10FailState.msgCalls ++ [MsgCall.rejectedHandshake hsTimeoutMsg] } :=
  c10_stale_handshake defaultConfig c10FailState "echo" Val.null 3000 2 hsTimeoutMsg (by decide)

/-- C4: `sendHandshake` called from an unconnected, not-yet-connecting state
sends exactly one handshake envelope and installs the shared `_whenReady`
deferred; a second call while that handshake is still in flight returns the
very same state (same deferred, nothing else sent); once the handshake has
completed (`_connected`), calling it again throws the protocol-misuse error
synchronously. -/
theorem c4_sendHandshake_contract (cfg : Config) (s : ChannelState) (t tt : Nat) :
    (s.connected = false → s.connecting = false →
      ∃ s1, sendHandshakeOp cfg s t = Except.ok s1 ∧
        s1.sent = s.sent ++ [hsEnvelope cfg (genNext s.gen t).1] ∧
        s1.whenReady = some HsDeferred.pending ∧
        s1.connected = false ∧
        sendHandshakeOp cfg s1 tt = Except.ok s1) ∧
    (s.connected = true → sendHandshakeOp cfg s t = Except.error hsMisuseMsg) := by
  constructor
  · intro h1 h2
    refine ⟨{ s with
        connecting := true
        whenReady := some HsDeferred.pending
        hsWaiter := true
        hsTimer := decide (0 < cfg.handshakeTimeout)
        gen := (genNext s.gen t).2
        sent := s.sent ++ [hsEnvelope cfg (genNext s.gen t).1] }, ?_, rfl, rfl, h1, ?_⟩
    · simp [sendHandshakeOp, h1, h2, _sendMessagePure, hsEnvelope, requestEnv]
    · simp [sendHandshakeOp, h1]
  · intro h1
    simp [sendHandshakeOp, h1]

theorem c4_sendHandshake_contract_witness :
    (initState.connected = false) ∧
    (∃ s1, sendHandshakeOp defaultConfig initState 1 = Except.ok s1 ∧
      s1.sent = initState.sent ++ [hsEnvelope defaultConfig (genNext initState.gen 1).1] ∧
      s1.whenReady = some HsDeferred.pending ∧
      s1.connected = false ∧
      sendHandshakeOp defaultConfig s1 2 = Except.ok s1) :=
  ⟨rfl, (c4_sendHandshake_contract defaultConfig initState 1 2).1 rfl rfl⟩

/-- C1: for an outbound `_sendMessage` call with timeout `T > 0`: once its
deferred is settled no later event changes it; when no reply is delivered the
rejection timer rejects it with the message-acknowledgment-timeout failure; a
reply arriving after that rejection is a silent no-op (the waiter was
unregistered, nothing resolves and nothing throws); and a reply delivered
while the deferred is pending resolves it — so every call settles exactly
once, never both resolving and rejecting. -/
theorem c1_outbound_deferred (timeout : Nat) (evs : List CEv) (e : CEv) (v : Val)
    (hT : 0 < timeout) :
    ((crun (callInit timeout) evs).res ≠ CallRes.pending →
      (cstep (crun (callInit timeout) evs) e).res = (crun (callInit timeout) evs).res) ∧
    ((∀ w, CEv.reply w ∉ evs) →
      (crun (callInit timeout) (evs ++ [CEv.timerFire])).res = CallRes.rejectedC msgTimeoutMsg) ∧
    (∀ r, (crun (callInit timeout) evs).res = CallRes.rejectedC r →
      cstep (crun (callInit timeout) evs) (CEv.reply v) = crun (callInit timeout) evs) ∧
    ((crun (callInit timeout) evs).res = CallRes.pending →
      (cstep (crun (callInit timeout) evs) (CEv.reply v)).res = CallRes.resolvedC v) := by
  have hinv : CallInv (crun (callInit timeout) evs) :=
    callInv_run _ evs (callInv_init timeout)
  refine ⟨?_, ?_, ?_, ?_⟩
  · intro hres
    rw [cstep_settled _ e hinv hres]
  · intro hnr
    rw [crun_append]
    rcases crun_no_reply timeout hT evs (fun w => hnr w) with h | h
    · rw [h]
      simp [crun, cstep, callInit, settleReject, callRejected, hT]
    · rw [h]
      simp [crun, cstep, callRejected]
  · intro r hres
    exact cstep_settled _ (CEv.reply v) hinv (by simp [hres])
  · intro hres
    have hw : (crun (callInit timeout) evs).waiter = true := hinv.1 hres
    simp [cstep, hw, settleResolve, hres]

theorem c1_outbound_deferred_witness :
    (0 < 5) ∧
    (((crun (callInit 5) []).res ≠ CallRes.pending →
        (cstep (crun (callInit 5) []) CEv.timerFire).res = (crun (callInit 5) []).res) ∧
      ((∀ w, CEv.reply w ∉ ([] : List CEv)) →
        (crun (callInit 5) ([] ++ [CEv.timerFire])).res = CallRes.rejectedC msgTimeoutMsg) ∧
      (∀ r, (crun (callInit 5) []).res = CallRes.rejectedC r →
        cstep (crun (callInit 5) []) (CEv.reply Val.null) = crun (callInit 5) []) ∧
      ((crun (callInit 5) []).res = CallRes.pending →
        (cstep (crun (callInit 5) []) (CEv.reply Val.null)).res = CallRes.resolvedC Val.null)) :=
  ⟨by decide, c1_outbound_deferred 5 [] CEv.timerFire Val.null (by decide)⟩

theorem connRank_le_two (s : ChannelState) : connRank s ≤ 2 := by
  unfold connRank
  split
  · omega
  · split <;> omega

/-- How one step can move the two connection flags: unchanged; entering
`connecting` (fresh handshake send); leaving `connecting` (handshake
rejection timer, the only regression); or entering `connected` (handshake
acknowledged). -/
theorem step_flags (cfg : Config) (s : ChannelState) (e : Ev) :
    ((step cfg s e).connected = s.connected ∧ (step cfg s e).connecting = s.connecting) ∨
    ((step cfg s e).connected = s.connected ∧ (step cfg s e).connecting = true) ∨
    (e = Ev.rem REv.hsTimeout ∧ s.hsTimer = true ∧
      (step cfg s e).connected = s.connected ∧ (step cfg s e).connecting = false) ∨
    ((step cfg s e).connected = true ∧ (step cfg s e).connecting = s.connecting) := by
  cases e with
  | op o =>
    cases o with
    | sendHandshake t =>
      by_cases hc : s.connected
      · left; simp [step, applyOp, sendHandshakeOp, hc]
      · by_cases hcg : s.connecting
        · left; simp [step, applyOp, sendHandshakeOp, hc, hcg]
        · right; left; simp [step, applyOp, sendHandshakeOp, hc, hcg]
    | sendMessage a d tmo t =>
      by_cases hw : s.whenReady = none
      · by_cases hc : s.connected
        · left; simp [step, applyOp, sendMessageOp, sendHandshakeOp, hw, hc]
        · by_cases hcg : s.connecting
          · left; simp [step, applyOp, sendMessageOp, sendHandshakeOp, hw, hc, hcg]
          · right; left
            simp [step, applyOp, sendMessageOp, sendHandshakeOp, hw, hc, hcg]
      · rcases hwr : s.whenReady with _ | d'
        · exact absurd hwr hw
        · cases d' with
          | pending => left; simp [step, applyOp, sendMessageOp, hwr]
          | fulfilled => left; simp [step, applyOp, sendMessageOp, hwr]
          | rejected r => left; simp [step, applyOp, sendMessageOp, hwr]
  | rem e' =>
    cases e' with
    | hsAck t =>
      by_cases hwt : s.hsWaiter
      · right; right; right; simp [step, stepRem, hwt]
      · left; simp [step, stepRem, hwt]
    | hsTimeout =>
      by_cases ht : s.hsTimer
      · right; right; left; simp [step, stepRem, ht]
      · left; simp [step, stepRem, ht]
    | msgAck i v => left; simp [step, stepRem]
    | msgTimeout i => left; simp [step, stepRem]

/-- C5 (as stated, refuted): from a reachable `connecting` state the
handshake rejection timer moves the channel back to `unconnected` — the
connection state does regress on handshake timeout (`sendHandshake`'s
`catch` resets `_connecting = false` so a later handshake can retry). -/
theorem c5_connection_state_counterexample :
    connRank (step defaultConfig (step defaultConfig initState (Ev.op (Op.sendHandshake 1)))
        (Ev.rem REv.hsTimeout)) <
      connRank (step defaultConfig initState (Ev.op (Op.sendHandshake 1))) := by
  decide

/-- C5 amended: the connection state never regresses except for the single
transition `connecting → unconnected` taken by the handshake rejection
timer; in particular once `connected` the channel stays connected under every
operation and event. -/
theorem c5_connection_state_amended (cfg : Config) (s : ChannelState) (e : Ev) :
    (s.connected = true → (step cfg s e).connected = true) ∧
    (connRank (step cfg s e) < connRank s →
      e = Ev.rem REv.hsTimeout ∧ s.connected = false ∧ s.connecting = true ∧
        s.hsTimer = true ∧ connRank (step cfg s e) = 0) := by
  rcases step_flags cfg s e with ⟨h1, h2⟩ | ⟨h1, h2⟩ | ⟨he, ht, h1, h2⟩ | ⟨h1, h2⟩
  · refine ⟨fun hc => by rw [h1, hc], fun hlt => absurd hlt ?_⟩
    have : connRank (step cfg s e) = connRank s := by simp [connRank, h1, h2]
    omega
  · refine ⟨fun hc => by rw [h1, hc], fun hlt => absurd hlt ?_⟩
    by_cases hc : s.connected
    · have : connRank (step cfg s e) = connRank s := by simp [connRank, h1, h2, hc]
      omega
    · have hnew : connRank (step cfg s e) = 1 := by
        simp [connRank, h1, h2, hc]
      have hold : connRank s ≤ 1 := by
        unfold connRank
        rw [if_neg (by simpa using hc)]
        split <;> omega
      omega
  · by_cases hc : s.connected
    · refine ⟨fun _ => by rw [h1]; exact hc, fun hlt => absurd hlt ?_⟩
      have : connRank (step cfg s e) = connRank s := by simp [connRank, h1, h2, hc]
      omega
    · refine ⟨fun hcc => absurd hcc (by simp [hc]), fun hlt => ?_⟩
      by_cases hcg : s.connecting
      · have hnew : connRank (step cfg s e) = 0 := by
          simp [connRank, h1, h2, hc]
        exact ⟨he, by simp [hc], hcg, ht, hnew⟩
      · exfalso
        have hnew : connRank (step cfg s e) = 0 := by
          simp [connRank, h1, h2, hc]
        have hold : connRank s = 0 := by simp [connRank, hc, hcg]
        omega
  · refine ⟨fun _ => h1, fun hlt => absurd hlt ?_⟩
    have hnew : connRank (step cfg s e) = 2 := by simp [connRank, h1]
    have hold : connRank s ≤ 2 := connRank_le_two s
    omega

theorem c5_connection_state_amended_witness :
    (step defaultConfig (run defaultConfig initState
        [Ev.op (Op.sendHandshake 1), Ev.rem (REv.hsAck 2)]) (Ev.rem REv.hsTimeout)).connected
      = true :=
  (c5_connection_state_amended defaultConfig
      (run defaultConfig initState [Ev.op (Op.sendHandshake 1), Ev.rem (REv.hsAck 2)])
      (Ev.rem REv.hsTimeout)).1 (by decide)

theorem updateAt_singleton (f : MsgCall → MsgCall) (c : MsgCall) (i : Nat) :
    updateAt f [c] i = [f c] ∨ updateAt f [c] i = [c] := by
  cases i with
  | zero => left; rfl
  | succ j => right; simp [updateAt]

/-- The shapes a `sendMessage` call record can take once dispatched with
timeout `tmo` and envelope id `mid`. -/
def allowedCall (mid : String) (tmo : Nat) (c : MsgCall) : Prop :=
  c = MsgCall.sentPending mid (decide (0 < tmo)) ∨ (∃ v, c = MsgCall.resolvedCall v) ∨
    c = MsgCall.rejectedTimeout msgTimeoutMsg

/-- Invariant driving C2: state of the channel after a single `sendMessage`
issued from the fresh state, whose implicit handshake envelope has id
`hsid`.  Either the handshake is pending (only the handshake envelope sent,
the message queued), or it fulfilled (exactly the handshake envelope followed
by the message envelope, the call dispatched), or it rejected (only the
handshake envelope sent, the call rejected with the handshake reason). -/
def InvC2 (cfg : Config) (a : String) (d : Val) (tmo : Nat) (hsid : String)
    (s : ChannelState) : Prop :=
  (s.whenReady = some HsDeferred.pending ∧ s.sent = [hsEnvelope cfg hsid] ∧
    s.hsWaiter = true ∧ s.connected = false ∧ s.msgCalls = [MsgCall.queued a d tmo]) ∨
  (s.whenReady = some HsDeferred.fulfilled ∧ s.connected = true ∧
    s.hsWaiter = false ∧ s.hsTimer = false ∧
    ∃ mid c, s.sent = [hsEnvelope cfg hsid, requestEnv cfg.callbackGlobal mid a d] ∧
      s.msgCalls = [c] ∧ allowedCall mid tmo c) ∨
  (s.whenReady = some (HsDeferred.rejected hsTimeoutMsg) ∧ s.sent = [hsEnvelope cfg hsid] ∧
    s.hsWaiter = false ∧ s.hsTimer = false ∧ s.connected = false ∧
    s.msgCalls = [MsgCall.rejectedHandshake hsTimeoutMsg])

theorem invC2_step (cfg : Config) (a : String) (d : Val) (tmo : Nat) (hsid : String)
    (s : ChannelState) (e : REv) (h : InvC2 cfg a d tmo hsid s) :
    InvC2 cfg a d tmo hsid (stepRem cfg s e) := by
  cases e with
  | hsAck t =>
    rcases h with ⟨hw, hsent, hwt, hc, hcalls⟩ |
        ⟨hw, hc, hwt, htm, mid, c, hsent, hcalls, hall⟩ |
        ⟨hw, hsent, hwt, htm, hc, hcalls⟩
    · have hstep : stepRem cfg s (REv.hsAck t) = { s with
          hsWaiter := false
          hsTimer := false
          connected := true
          whenReady := some HsDeferred.fulfilled
          gen := (genNext s.gen t).2
          sent := s.sent ++ [requestEnv cfg.callbackGlobal (genNext s.gen t).1 a d]
          msgCalls := [MsgCall.sentPending (genNext s.gen t).1 (decide (0 < tmo))] } := by
        simp [stepRem, hwt, hcalls, flushCalls, _sendMessagePure]
      rw [hstep]
      right; left
      exact ⟨rfl, rfl, rfl, rfl, (genNext s.gen t).1, _,
        by rw [hsent]; rfl, rfl, Or.inl rfl⟩
    · have hstep : stepRem cfg s (REv.hsAck t) = s := by simp [stepRem, hwt]
      rw [hstep]
      exact Or.inr (Or.inl ⟨hw, hc, hwt, htm, mid, c, hsent, hcalls, hall⟩)
    · have hstep : stepRem cfg s (REv.hsAck t) = s := by simp [stepRem, hwt]
      rw [hstep]
      exact Or.inr (Or.inr ⟨hw, hsent, hwt, htm, hc, hcalls⟩)
  | hsTimeout =>
    rcases h with ⟨hw, hsent, hwt, hc, hcalls⟩ |
        ⟨hw, hc, hwt, htm, mid, c, hsent, hcalls, hall⟩ |
        ⟨hw, hsent, hwt, htm, hc, hcalls⟩
    · by_cases ht : s.hsTimer = true
      · have hstep : stepRem cfg s REv.hsTimeout = { s with
            hsWaiter := false
            hsTimer := false
            connecting := false
            whenReady := some (HsDeferred.rejected hsTimeoutMsg)
            msgCalls := [MsgCall.rejectedHandshake hsTimeoutMsg] } := by
          simp [stepRem, ht, hcalls, rejectQueued]
        rw [hstep]
        right; right
        exact ⟨rfl, hsent, rfl, rfl, hc, rfl⟩
      · have ht2 : s.hsTimer = false := by simpa using ht
        have hstep : stepRem cfg s REv.hsTimeout = s := by simp [stepRem, ht2]
        rw [hstep]
        exact Or.inl ⟨hw, hsent, hwt, hc, hcalls⟩
    · have hstep : stepRem cfg s REv.hsTimeout = s := by simp [stepRem, htm]
      rw [hstep]
      exact Or.inr (Or.inl ⟨hw, hc, hwt, htm, mid, c, hsent, hcalls, hall⟩)
    · have hstep : stepRem cfg s REv.hsTimeout = s := by simp [stepRem, htm]
      rw [hstep]
      exact Or.inr (Or.inr ⟨hw, hsent, hwt, htm, hc, hcalls⟩)
  | msgAck i v =>
    have hstep : stepRem cfg s (REv.msgAck i v) =
        { s with msgCalls := updateAt (ackCall v) s.msgCalls i } := rfl
    rw [hstep]
    rcases h with ⟨hw, hsent, hwt, hc, hcalls⟩ |
        ⟨hw, hc, hwt, htm, mid, c, hsent, hcalls, hall⟩ |
        ⟨hw, hsent, hwt, htm, hc, hcalls⟩
    · left
      refine ⟨hw, hsent, hwt, hc, ?_⟩
      rw [hcalls]
      rcases updateAt_singleton (ackCall v) (MsgCall.queued a d tmo) i with h2 | h2 <;>
        simp [h2, ackCall]
    · rcases updateAt_singleton (ackCall v) c i with h2 | h2
      · right; left
        refine ⟨hw, hc, hwt, htm, mid, ackCall v c, hsent, by rw [hcalls, h2], ?_⟩
        rcases hall with h3 | ⟨v2, h3⟩ | h3 <;> subst h3 <;>
          simp [ackCall, allowedCall]
      · right; left
        exact ⟨hw, hc, hwt, htm, mid, c, hsent, by rw [hcalls, h2], hall⟩
    · right; right
      refine ⟨hw, hsent, hwt, htm, hc, ?_⟩
      rw [hcalls]
      rcases updateAt_singleton (ackCall v) (MsgCall.rejectedHandshake hsTimeoutMsg) i with h2 | h2 <;>
        simp [h2, ackCall]
  | msgTimeout i =>
    have hstep : stepRem cfg s (REv.msgTimeout i) =
        { s with msgCalls := updateAt timeoutCall s.msgCalls i } := rfl
    rw [hstep]
    rcases h with ⟨hw, hsent, hwt, hc, hcalls⟩ |
        ⟨hw, hc, hwt, htm, mid, c, hsent, hcalls, hall⟩ |
        ⟨hw, hsent, hwt, htm, hc, hcalls⟩
    · left
      refine ⟨hw, hsent, hwt, hc, ?_⟩
      rw [hcalls]
      rcases updateAt_singleton timeoutCall (MsgCall.queued a d tmo) i with h2 | h2 <;>
        simp [h2, timeoutCall]
    · rcases updateAt_singleton timeoutCall c i with h2 | h2
      · right; left
        refine ⟨hw, hc, hwt, htm, mid, timeoutCall c, hsent, by rw [hcalls, h2], ?_⟩
        rcases hall with h3 | ⟨v2, h3⟩ | h3 <;> subst h3
        · by_cases hto : 0 < tmo
          · rw [decide_eq_true hto]
            simp [timeoutCall, allowedCall]
          · rw [decide_eq_false hto]
            simp [timeoutCall, allowedCall, decide_eq_false hto]
        · simp [timeoutCall, allowedCall]
        · simp [timeoutCall, allowedCall]
      · right; left
        exact ⟨hw, hc, hwt, htm, mid, c, hsent, by rw [hcalls, h2], hall⟩
    · right; right
      refine ⟨hw, hsent, hwt, htm, hc, ?_⟩
      rw [hcalls]
      rcases updateAt_singleton timeoutCall (MsgCall.rejectedHandshake hsTimeoutMsg) i with h2 | h2 <;>
        simp [h2, timeoutCall]

theorem invC2_runRem (cfg : Config) (a : String) (d : Val) (tmo : Nat) (hsid : String)
    (s : ChannelState) (revs : List REv) (h : InvC2 cfg a d tmo hsid s) :
    InvC2 cfg a d tmo hsid (runRem cfg s revs) := by
  induction revs generalizing s with
  | nil => simpa [runRem]
  | cons e revs ih => exact ih _ (invC2_step cfg a d tmo hsid s e h)

theorem invC2_consequences (cfg : Config) (a : String) (d : Val) (tmo : Nat) (hsid : String)
    (s : ChannelState) (ha : a ≠ HANDSHAKE_ACTION) (h : InvC2 cfg a d tmo hsid s) :
    countHs s.sent = 1 ∧
    (∀ env ∈ s.sent, env.action = a →
      s.sent = [hsEnvelope cfg hsid, env] ∧ s.connected = true) ∧
    (∀ r, s.whenReady = some (HsDeferred.rejected r) →
      s.msgCalls = [MsgCall.rejectedHandshake r]) := by
  have hbeq : (a == HANDSHAKE_ACTION) = false := beq_eq_false_iff_ne.mpr ha
  rcases h with ⟨hw, hsent, _, _, _⟩ |
      ⟨hw, hc, _, _, mid, c, hsent, hcalls, _⟩ |
      ⟨hw, hsent, _, _, _, hcalls⟩
  · refine ⟨?_, ?_, ?_⟩
    · simp [hsent, countHs, hsEnvelope, requestEnv]
    · intro env hmem hact
      rw [hsent] at hmem
      simp only [List.mem_singleton] at hmem
      subst hmem
      exact (ha (by simpa [hsEnvelope, requestEnv] using hact.symm)).elim
    · intro r hr
      rw [hw] at hr
      cases hr
  · refine ⟨?_, ?_, ?_⟩
    · simp [hsent, countHs, hsEnvelope, requestEnv, List.countP_cons, hbeq]
    · intro env hmem hact
      rw [hsent] at hmem
      rcases List.mem_pair.mp (by simpa using hmem) with h' | h'
      · subst h'
        exact absurd (by simpa [hsEnvelope, requestEnv] using hact.symm) ha
      · subst h'
        exact ⟨hsent, hc⟩
    · intro r hr
      rw [hw] at hr
      cases hr
  · refine ⟨?_, ?_, ?_⟩
    · simp [hsent, countHs, hsEnvelope, requestEnv]
    · intro env hmem hact
      rw [hsent] at hmem
      simp only [List.mem_singleton] at hmem
      subst hmem
      exact (ha (by simpa [hsEnvelope, requestEnv] using hact.symm)).elim
    · intro r hr
      rw [hw] at hr
      have h4 : hsTimeoutMsg = r := by
        injection hr with hr2
        injection hr2
      rw [hcalls, h4]

/-- The channel state right after a single `sendMessage(a, d, tmo)` issued at
time `t` from the fresh state: implicit handshake sent, message queued. -/
def c2State (cfg : Config) (a : String) (d : Val) (tmo t : Nat) : ChannelState :=
  { initState with
    connecting := true
    whenReady := some HsDeferred.pending
    hsWaiter := true
    hsTimer := decide (0 < cfg.handshakeTimeout)
    gen := (genNext genInit t).2
    sent := [hsEnvelope cfg (genNext genInit t).1]
    msgCalls := [MsgCall.queued a d tmo] }

/-- C2: a `sendMessage` from the fresh channel (no handshake ever initiated)
implicitly sends exactly one handshake envelope and queues the message call;
under every subsequent sequence of remote events, exactly one handshake
envelope is ever in the transport log, any message envelope appears strictly
after the handshake envelope and only once the handshake deferred fulfilled
(channel connected), and if the handshake deferred rejects the message call's
deferred rejects with the same handshake rejection rather than hanging. -/
theorem c2_sendMessage_implicit_handshake (cfg : Config) (a : String) (d : Val)
    (tmo t : Nat) (ha : a ≠ HANDSHAKE_ACTION) :
    ∃ s1 hsid, sendMessageOp cfg initState a d tmo t = Except.ok s1 ∧
      s1.sent = [hsEnvelope cfg hsid] ∧
      s1.msgCalls = [MsgCall.queued a d tmo] ∧
      ∀ revs : List REv,
        countHs (runRem cfg s1 revs).sent = 1 ∧
        (∀ env ∈ (runRem cfg s1 revs).sent, env.action = a →
          (runRem cfg s1 revs).sent = [hsEnvelope cfg hsid, env] ∧
          (runRem cfg s1 revs).connected = true) ∧
        (∀ r, (runRem cfg s1 revs).whenReady = some (HsDeferred.rejected r) →
          (runRem cfg s1 revs).msgCalls = [MsgCall.rejectedHandshake r]) := by
  have hok : sendMessageOp cfg initState a d tmo t = Except.ok (c2State cfg a d tmo t) := by
    simp [sendMessageOp, sendHandshakeOp, initState, _sendMessagePure, hsEnvelope, c2State]
  refine ⟨c2State cfg a d tmo t, (genNext genInit t).1, hok, rfl, rfl, ?_⟩
  intro revs
  have hinv : InvC2 cfg a d tmo (genNext genInit t).1
      (runRem cfg (c2State cfg a d tmo t) revs) :=
    invC2_runRem cfg a d tmo (genNext genInit t).1 (c2State cfg a d tmo t) revs
      (Or.inl ⟨rfl, rfl, rfl, rfl, rfl⟩)
  exact invC2_consequences cfg a d tmo (genNext genInit t).1 _ ha hinv

theorem c2_sendMessage_implicit_handshake_witness :
    ("echo" ≠ HANDSHAKE_ACTION) ∧
    (∃ s1 hsid, sendMessageOp defaultConfig initState "echo" Val.null 3000 7 = Except.ok s1 ∧
      s1.sent = [hsEnvelope defaultConfig hsid] ∧
      s1.msgCalls = [MsgCall.queued "echo" Val.null 3000] ∧
      ∀ revs : List REv,
        countHs (runRem defaultConfig s1 revs).sent = 1 ∧
        (∀ env ∈ (runRem defaultConfig s1 revs).sent, env.action = "echo" →
          (runRem defaultConfig s1 revs).sent = [hsEnvelope defaultConfig hsid, env] ∧
          (runRem defaultConfig s1 revs).connected = true) ∧
        (∀ r, (runRem defaultConfig s1 revs).whenReady = some (HsDeferred.rejected r) →
          (runRem defaultConfig s1 revs).msgCalls = [MsgCall.rejectedHandshake r])) :=
  ⟨by decide, c2_sendMessage_implicit_handshake defaultConfig "echo" Val.null 3000 7 (by decide)⟩

end WK
